import Mathlib

/-
Verification of the EPT3 question-generation pipeline.

The development shallowly embeds the relevant parts of
`prompt_engineer.py` and `streamlit_app.py`:

* Python strings are Lean `String`s (lists of characters); `str.lower`,
  `str.strip`, `str.split()`, `re.sub` on the parenthesis pattern and
  `str.replace` are modelled character by character on `List Char`.
* `pandas` vocabulary tables are lists of `VocabRow` records (the two
  columns the code reads); example banks are a column list plus
  positionally indexed rows, as in a dataframe.
* `random.sample` / `DataFrame.sample` are modelled by an explicit
  sampler argument constrained by `SamplerOK` (the sampled list is a
  sub-multiset of the pool of exactly the requested size), and
  `random.shuffle` by a shuffler constrained by `ShufflerOK` (the
  output is a permutation of the input).
* The Sequential Batch (3-Call) branch of `streamlit_app.py` is
  modelled as a function from the three per-stage parse outcomes
  (`Except` values, the pair returned by the response parser) to the
  batch outcome: number of LLM calls made, assembled questions, and
  the surfaced error, mirroring the `break` control flow.
-/

namespace EPT

/-- Python `str.lower()` restricted to ASCII, which is what the
vocabulary data uses; maps each character through `Char.toLower`. -/
def pyLower (s : String) : String :=
  String.mk (s.data.map Char.toLower)

/-- Leading/trailing-whitespace trimming on character lists. -/
def stripChars (l : List Char) : List Char :=
  ((l.dropWhile Char.isWhitespace).reverse.dropWhile Char.isWhitespace).reverse

/-- Python `str.strip()` (whitespace modelled as ASCII whitespace). -/
def pyStrip (s : String) : String :=
  String.mk (stripChars s.data)

/-- The `.lower().strip()` normalisation the selection code applies
before comparing vocabulary items. -/
def lower_strip (s : String) : String :=
  pyStrip (pyLower s)

/-- One step of `re.sub(r'\([^)]*\)', '', s)`: scanning state is
`none` outside a parenthesis group and `some buf` inside one, where
`buf` holds the group seen so far (reversed) in case it is unmatched
and must be emitted literally. -/
def stripParensAux : List Char → Option (List Char) → List Char
  | [], none => []
  | [], some buf => buf.reverse
  | c :: rest, none =>
    if c = '(' then stripParensAux rest (some [c])
    else c :: stripParensAux rest none
  | c :: rest, some buf =>
    if c = ')' then stripParensAux rest none
    else stripParensAux rest (some (c :: buf))

/-- `re.sub(r'\([^)]*\)', '', s)` from `get_first_word`. -/
def stripParens (l : List Char) : List Char :=
  stripParensAux l none

/-- Python `str.split()` (split on whitespace runs, dropping empty
tokens); the accumulator holds the current word reversed. -/
def pyWordsAux : List Char → List Char → List (List Char)
  | [], acc => if acc = [] then [] else [acc.reverse]
  | c :: rest, acc =>
    if c.isWhitespace then
      if acc = [] then pyWordsAux rest []
      else acc.reverse :: pyWordsAux rest []
    else pyWordsAux rest (c :: acc)

def pyWords (l : List Char) : List (List Char) :=
  pyWordsAux l []

/-- `get_first_word` from prompt_engineer.py: remove parenthesised
content, split on whitespace, return the first word, falling back to
the whole original item when no word remains. -/
def get_first_word (vocab_item : String) : String :=
  match pyWords (stripParens vocab_item.data) with
  | w :: _ => String.mk w
  | [] => vocab_item

/-- `get_initial_letter` from prompt_engineer.py: lowercased first
character of `get_first_word`, or the empty string when it is empty. -/
def get_initial_letter (vocab_item : String) : String :=
  match (get_first_word vocab_item).data with
  | [] => ""
  | c :: _ => String.mk [c.toLower]

/-- `get_phonetic_similar_letters` from prompt_engineer.py: the fixed
phonetic-substitution table, keyed by the lowercased letter. -/
def get_phonetic_similar_letters (letter : String) : List String :=
  if pyLower letter = "c" then ["k", "q"]
  else if pyLower letter = "k" then ["c", "q"]
  else if pyLower letter = "q" then ["c", "k"]
  else if pyLower letter = "s" then ["c", "z"]
  else if pyLower letter = "z" then ["s"]
  else if pyLower letter = "f" then ["ph"]
  else if pyLower letter = "ph" then ["f"]
  else if pyLower letter = "j" then ["g"]
  else if pyLower letter = "g" then ["j"]
  else if pyLower letter = "i" then ["y"]
  else if pyLower letter = "y" then ["i"]
  else []

/-- Modelled from the spec: the lowercased first letter of the first
word remaining after stripping parenthetical content (the wording of
§4.4 for `selectByInitialLetter`). -/
def spec_initial_letter (s : String) : String :=
  match pyWords (stripParens s.data) with
  | [] => ""
  | w :: _ => pyLower (String.mk (w.take 1))

/-- One row of the uploaded vocabulary table: the two columns the
selection code reads (`Base Vocabulary Item`, `Part of Speech`). -/
structure VocabRow where
  item : String
  pos : String
deriving DecidableEq, Repr

/-- A sampler standing for `random.sample` / `DataFrame.sample`. -/
def Sampler (α : Type) : Type :=
  List α → Nat → List α

/-- Sampling without replacement: whenever the requested size does not
exceed the pool, the sample is a sub-multiset of the pool of exactly
the requested size. -/
def SamplerOK {α : Type} (samp : Sampler α) : Prop :=
  ∀ l n, n ≤ l.length → (samp l n).Subperm l ∧ (samp l n).length = n

/-- The deterministic head-taking sampler, used to instantiate
witnesses and counterexamples. -/
def sampTake {α : Type} : Sampler α :=
  fun l n => l.take n

/-- The pool `python_select_by_pos` draws from: rows whose
`Part of Speech` matches the target (lowercased and stripped) minus the
target item itself, projected to the item column. -/
def same_pos_pool (vocab_df : List VocabRow) (target_vocab target_pos : String) :
    List String :=
  (((vocab_df.filter (fun r => lower_strip r.pos = lower_strip target_pos)).filter
    (fun r => lower_strip r.item ≠ lower_strip target_vocab)).map (fun r => r.item))

/-- `python_select_by_pos` from prompt_engineer.py: sample
`max_items` from the part-of-speech pool, or return the whole pool
when it is smaller. -/
def python_select_by_pos (samp : Sampler String) (vocab_df : List VocabRow)
    (target_vocab target_pos : String) (max_items : Nat := 4) : List String :=
  let pool := same_pos_pool vocab_df target_vocab target_pos
  if max_items ≤ pool.length then samp pool max_items else pool

/-- The exclusion keys of `python_select_by_initial_letter`:
`[item.lower().strip() for item in exclude_items + [target_vocab]]`. -/
def exclude_keys (exclude_items : List String) (target_vocab : String) : List String :=
  (exclude_items ++ [target_vocab]).map lower_strip

/-- The same-initial-letter pool after the exclusion filter, projected
to the item column. -/
def same_letter_pool (vocab_df : List VocabRow) (target_vocab : String)
    (exclude_items : List String) : List String :=
  ((vocab_df.filter (fun r => get_initial_letter r.item = get_initial_letter target_vocab)).filter
    (fun r => lower_strip r.item ∉ exclude_keys exclude_items target_vocab)).map
    (fun r => r.item)

/-- The phonetic matches considered for one fallback letter: items of
the whole table with that initial letter, minus the exclusion keys and
the lowercased candidates collected so far. -/
def phonetic_matches (items : List String) (excl : List String)
    (cands : List String) (phon : String) : List String :=
  (items.filter (fun x => get_initial_letter x = phon)).filter
    (fun x => lower_strip x ∉ excl ++ cands.map pyLower)

/-- The `for phon_letter in phonetic_letters` loop of
`python_select_by_initial_letter`: stop early once `max_items`
candidates are collected, otherwise sample `min(needed, len(matches))`
additional items for each fallback letter in turn. -/
def fallbackLoop (samp : Sampler String) (items : List String) (excl : List String)
    (max_items : Nat) : List String → List String → List String
  | [], cands => cands
  | phon :: rest, cands =>
    if max_items ≤ cands.length then cands
    else if phonetic_matches items excl cands phon ≠ [] then
      fallbackLoop samp items excl max_items rest
        (cands ++ samp (phonetic_matches items excl cands phon)
          (min (max_items - cands.length) (phonetic_matches items excl cands phon).length))
    else fallbackLoop samp items excl max_items rest cands

/-- `python_select_by_initial_letter` from prompt_engineer.py: sample
from the same-initial-letter pool when it is large enough, otherwise
take the whole pool and fill up via the phonetic fallback loop,
capping the result at `max_items`. -/
def python_select_by_initial_letter (samp : Sampler String) (vocab_df : List VocabRow)
    (target_vocab : String) (max_items : Nat := 4)
    (exclude_items : List String := []) : List String :=
  let pool := same_letter_pool vocab_df target_vocab exclude_items
  if max_items ≤ pool.length then samp pool max_items
  else
    let phonetic_letters := get_phonetic_similar_letters (get_initial_letter target_vocab)
    (fallbackLoop samp (vocab_df.map (fun r => r.item))
      (exclude_keys exclude_items target_vocab) max_items phonetic_letters pool).take max_items

/-- The per-job data computed by `create_vocab_list_stage2_prompt`
before composing the prompt: the two selection runs, their combined
size, and the `Needed from LLM` count `max(0, 8 - total)`. -/
structure PreSelected where
  posSelected : List String
  letterSelected : List String
  totalPython : Nat
  neededFromLLM : Int
deriving DecidableEq, Repr

/-- The dual-selection part of `create_vocab_list_stage2_prompt` for
one job (prompt_engineer.py lines 325-359). -/
def vocabStage2PreSelect (samp1 samp2 : Sampler String) (vocabulary_list_df : List VocabRow)
    (target_vocab target_pos : String) : PreSelected :=
  let pos_selected := python_select_by_pos samp1 vocabulary_list_df target_vocab target_pos 4
  let letter_selected := python_select_by_initial_letter samp2 vocabulary_list_df
    target_vocab 4 pos_selected
  let total_python := pos_selected.length + letter_selected.length
  { posSelected := pos_selected
    letterSelected := letter_selected
    totalPython := total_python
    neededFromLLM := max 0 (8 - (total_python : Int)) }

/-- Worker for Python `str.replace` with a nonempty pattern: scan left
to right, replacing every non-overlapping occurrence.  The fuel (one
unit per input character) only makes the recursion structural; it is
always at least the input length at every call. -/
def pyReplaceGo (old new : List Char) : Nat → List Char → List Char
  | _, [] => []
  | 0, s => s
  | fuel + 1, c :: rest =>
    if old.isPrefixOf (c :: rest) then
      new ++ pyReplaceGo old new fuel (rest.drop (old.length - 1))
    else c :: pyReplaceGo old new fuel rest

/-- Python `s.replace(old, new)`: every non-overlapping occurrence is
replaced; an empty pattern inserts `new` at every position. -/
def pyReplace (s old new : List Char) : List Char :=
  if old = [] then new ++ s.flatMap (fun c => c :: new)
  else pyReplaceGo old new s.length s

/-- Worker for Python `s.count(old)` with a nonempty pattern
(non-overlapping occurrences), fuelled like `pyReplaceGo`. -/
def countOccGo (old : List Char) : Nat → List Char → Nat
  | _, [] => 0
  | 0, _ => 0
  | fuel + 1, c :: rest =>
    if old.isPrefixOf (c :: rest) then
      1 + countOccGo old fuel (rest.drop (old.length - 1))
    else countOccGo old fuel rest

/-- Number of non-overlapping occurrences of `old` in `s`
(`s.count(old)` for nonempty `old`). -/
def countOcc (old s : List Char) : Nat :=
  countOccGo old s.length s

/-- Modelled from the spec: replace only the FIRST occurrence of `old`
in the scanned list by `new`, leaving the rest unchanged; this is the
substitution §4.6 of the spec describes for the Question Prompt. -/
def replaceFirst (old new : List Char) : List Char → List Char
  | [] => []
  | c :: rest =>
    if old.isPrefixOf (c :: rest) then new ++ rest.drop (old.length - 1)
    else c :: replaceFirst old new rest

/-- First-occurrence substitution on strings (spec wording). -/
def replaceFirstSpec (s old new : String) : String :=
  String.mk (replaceFirst old.data new.data s.data)

/-- The Stage 1 fields the final assembly reads
(`stage1_data.get(...)` in streamlit_app.py). -/
structure Stage1Record where
  itemNumber : String
  assessmentFocus : String
  completeSentence : String
  correctAnswer : String
  cefrRating : String
  category : String
deriving DecidableEq, Repr, Inhabited

/-- A parsed Stage 2 candidate record; its content only flows into the
Stage 3 prompt text and is never read by the assembly. -/
structure Stage2Record where
  itemNumber : String
  candidates : List String
deriving DecidableEq, Repr, Inhabited

/-- The Stage 3 fields the final assembly reads. -/
structure Stage3Record where
  selectedDistractorA : String
  selectedDistractorB : String
  selectedDistractorC : String
deriving DecidableEq, Repr, Inhabited

/-- One row of the final question table (streamlit_app.py lines
567-578). -/
structure FinalQuestion where
  itemNumber : String
  assessmentFocus : String
  questionPrompt : String
  answerA : String
  answerB : String
  answerC : String
  answerD : String
  correctAnswer : String
  cefrRating : String
  category : String
deriving DecidableEq, Repr, Inhabited

/-- The 4-option list built before shuffling: the three selected
distractors then the correct answer. -/
def assembleOptions (s1 : Stage1Record) (s3 : Stage3Record) : List String :=
  [s3.selectedDistractorA, s3.selectedDistractorB, s3.selectedDistractorC,
    s1.correctAnswer]

/-- Assembly of one final question (streamlit_app.py lines 551-578),
taking the already-shuffled options list (the Stage 3 record enters
only through the options, via `assembleOptions`): blank out the
correct answer in the sentence with `str.replace`, read the four
answers off the shuffled list, and record
`chr(65 + options.index(correct_answer))`. -/
def assembleItem (s1 : Stage1Record) (options : List String) : FinalQuestion :=
  let question_prompt :=
    String.mk (pyReplace s1.completeSentence.data s1.correctAnswer.data "____".data)
  let correct_letter := String.mk [Char.ofNat (65 + options.indexOf s1.correctAnswer)]
  { itemNumber := s1.itemNumber
    assessmentFocus := s1.assessmentFocus
    questionPrompt := question_prompt
    answerA := options.getD 0 ""
    answerB := options.getD 1 ""
    answerC := options.getD 2 ""
    answerD := options.getD 3 ""
    correctAnswer := correct_letter
    cefrRating := s1.cefrRating
    category := s1.category }

/-- The answer field of a final question addressed by its letter. -/
def answerAt (q : FinalQuestion) (letter : String) : Option String :=
  if letter = "A" then some q.answerA
  else if letter = "B" then some q.answerB
  else if letter = "C" then some q.answerC
  else if letter = "D" then some q.answerD
  else none

/-- A shuffler standing for `random.shuffle`. -/
def Shuffler : Type :=
  List String → List String

/-- `random.shuffle` permutes its list in place. -/
def ShufflerOK (sh : Shuffler) : Prop :=
  ∀ l, (sh l).Perm l

/-- The identity shuffler (a legitimate permutation draw). -/
def shId : Shuffler := fun l => l

/-- A planner job as consumed by the Sequential Batch branch. -/
structure Job where
  jobId : Nat
  cefr : String
  type : String
  focus : String
  topic : String
  strategy : String
deriving DecidableEq, Repr, Inhabited

/-- Inputs of one Sequential Batch run: the job list and, for each
stage, the outcome of parsing/extracting that stage's LLM response
(`parse_response` / `extract_array_from_response` both live behind
this `Except` boundary). -/
structure BatchEnv where
  jobs : List Job
  stage1Result : Except String (List Stage1Record)
  stage2Result : Except String (List Stage2Record)
  stage3Result : Except String (List Stage3Record)

/-- Observable outcome of one Sequential Batch run: how many LLM calls
were issued, the assembled questions, and the surfaced error if any. -/
structure BatchOutcome where
  llmCalls : Nat
  questions : List FinalQuestion
  errorMsg : Option String
deriving DecidableEq, Repr

/-- `job_list[0]['type']`, the discriminator the Stage 2 branch reads. -/
def questionTypeOf (env : BatchEnv) : String :=
  (env.jobs.headD default).type

/-- The final assembly loop (streamlit_app.py lines 549-580):
`for i in range(len(stage1_data_list)): if i < len(stage3_data_list)`,
i.e. items are paired positionally and the iteration stops at the
shorter list. -/
def assembleAll (sh : Shuffler) (s1s : List Stage1Record) (s3s : List Stage3Record) :
    List FinalQuestion :=
  List.zipWith (fun a b => assembleItem a (sh (assembleOptions a b))) s1s s3s

/-- The Sequential Batch (3-Call) branch of streamlit_app.py (lines
438-583): each stage's parse failure `break`s out before the next LLM
call; an unknown question type aborts before the Stage 2 call; on
success the assembly loop runs over the Stage 1/Stage 3 lists. -/
def runSequentialBatch (sh : Shuffler) (env : BatchEnv) : BatchOutcome :=
  match env.stage1Result with
  | .error e => { llmCalls := 1, questions := [], errorMsg := some ("Stage 1 failed: " ++ e) }
  | .ok stage1_data_list =>
    if questionTypeOf env = "Grammar" ∨ questionTypeOf env = "Vocabulary" then
      match env.stage2Result with
      | .error e => { llmCalls := 2, questions := [], errorMsg := some ("Stage 2 failed: " ++ e) }
      | .ok _ =>
        match env.stage3Result with
        | .error e => { llmCalls := 3, questions := [], errorMsg := some ("Stage 3 failed: " ++ e) }
        | .ok stage3_data_list =>
          { llmCalls := 3
            questions := assembleAll sh stage1_data_list stage3_data_list
            errorMsg := none }
    else
      { llmCalls := 1, questions := []
        errorMsg := some ("Unknown question type: " ++ questionTypeOf env) }

/-- Index of the first stage whose response fails to parse/extract
(`none` when all three stages parse, or when the run aborts earlier
for the non-parse reason of an unknown question type). -/
def stageFailureIndex (env : BatchEnv) : Option Nat :=
  match env.stage1Result with
  | .error _ => some 1
  | .ok _ =>
    if questionTypeOf env = "Grammar" ∨ questionTypeOf env = "Vocabulary" then
      match env.stage2Result with
      | .error _ => some 2
      | .ok _ =>
        match env.stage3Result with
        | .error _ => some 3
        | .ok _ => none
    else none

/-- An example bank: a dataframe as a list of column names plus
positionally indexed rows. -/
structure Bank where
  cols : List String
  rows : List (List String)
deriving DecidableEq, Repr, Inhabited

/-- `example_banks.get(key)` on the dict of banks. -/
def bankLookup (banks : List (String × Bank)) (key : String) : Option Bank :=
  match banks.find? (fun p => p.1 = key) with
  | some p => some p.2
  | none => none

/-- Writing back a bank under its key (a dict holds each key once, so
only the first occurrence is replaced). -/
def bankUpdate : List (String × Bank) → String → Bank → List (String × Bank)
  | [], _, _ => []
  | p :: ps, key, b =>
    if p.1 = key then (p.1, b) :: ps else p :: bankUpdate ps key b

/-- `row.get(col, "N/A")` on a positionally indexed dataframe row. -/
def rowGet (cols : List String) (row : List String) (name dflt : String) : String :=
  match cols.findIdx? (fun c => c = name) with
  | some i => row.getD i dflt
  | none => dflt

/-- The dict `json.dumps` receives for one sampled example row. -/
def exampleDict (cols : List String) (row : List String) : List (String × String) :=
  [("Question Prompt", rowGet cols row "Question Prompt" "N/A"),
   ("Answer A", rowGet cols row "Answer A" "N/A"),
   ("Answer B", rowGet cols row "Answer B" "N/A"),
   ("Answer C", rowGet cols row "Answer C" "N/A"),
   ("Answer D", rowGet cols row "Answer D" "N/A"),
   ("Correct Answer", rowGet cols row "Correct Answer" "N/A")]

/-- `json.dumps` of a flat string-valued dict (escaping is not needed
by any claim and is omitted). -/
def jsonDumpsPairs (pairs : List (String × String)) : String :=
  "\x7b" ++ String.intercalate ", "
    (pairs.map (fun p => "\"" ++ p.1 ++ "\": \"" ++ p.2 ++ "\"")) ++ "\x7d"

/-- The `### EXAMPLE:` blocks built from the sampled rows. -/
def fewShotText (cols : List String) (samples : List (List String)) : String :=
  String.join (samples.map
    (fun row => "### EXAMPLE:\n" ++ jsonDumpsPairs (exampleDict cols row) ++ "\n\n"))

/-- `get_few_shot_examples` from prompt_engineer.py: look the bank up
by lowercased type; return early when it is missing or empty; strip
its column names IN PLACE (`bank.columns = [c.strip() for c in
bank.columns]`); filter rows on `CEFR rating` when that column exists;
sample 2 relevant rows, else 2 bank rows, else return the empty
string.  Returns the text together with the post-call bank dict. -/
def get_few_shot_examples (samp : Sampler (List String)) (job : Job)
    (example_banks : List (String × Bank)) : String × List (String × Bank) :=
  match bankLookup example_banks (pyLower job.type) with
  | none => ("", example_banks)
  | some bank =>
    if bank.rows = [] ∨ bank.cols = [] then ("", example_banks)
    else
      let bank' : Bank := { cols := bank.cols.map pyStrip, rows := bank.rows }
      let banks' := bankUpdate example_banks (pyLower job.type) bank'
      let relevant :=
        if "CEFR rating" ∈ bank'.cols then
          bank'.rows.filter
            (fun row => pyStrip (rowGet bank'.cols row "CEFR rating" "") = pyStrip job.cefr)
        else bank'.rows
      if 2 ≤ relevant.length then (fewShotText bank'.cols (samp relevant 2), banks')
      else if 2 ≤ bank'.rows.length then (fewShotText bank'.cols (samp bank'.rows 2), banks')
      else ("", banks')

/-- The verified contract of `python_select_by_pos`: every returned
item is a table item with the target part of speech (lowercased and
stripped), the target word itself is never returned, at most
`max_items` items are returned, and exactly `max_items` when the
filtered pool is at least that large. -/
def SelectByPosSpec (samp : Sampler String) (vocab_df : List VocabRow)
    (target_vocab target_pos : String) (max_items : Nat) : Prop :=
  (∀ x ∈ python_select_by_pos samp vocab_df target_vocab target_pos max_items,
    ∃ r ∈ vocab_df, r.item = x ∧ lower_strip r.pos = lower_strip target_pos) ∧
  (∀ x ∈ python_select_by_pos samp vocab_df target_vocab target_pos max_items,
    lower_strip x ≠ lower_strip target_vocab) ∧
  (python_select_by_pos samp vocab_df target_vocab target_pos max_items).length ≤ max_items ∧
  (max_items ≤ (same_pos_pool vocab_df target_vocab target_pos).length →
    (python_select_by_pos samp vocab_df target_vocab target_pos max_items).length = max_items)

/-- The verified contract of `python_select_by_initial_letter`: at
most `max_items` items; none equal (case/whitespace-insensitively) to
the target or an excluded item; no duplicates PROVIDED the table's
item column has no duplicates; every item shares the target's initial
letter or carries one of its phonetic fallback letters; and when fewer
than `max_items` items come back, every non-excluded fallback-letter
item of the table was either taken or blocked by an already-collected
candidate. -/
def SelectByInitialLetterSpec (samp : Sampler String) (vocab_df : List VocabRow)
    (target_vocab : String) (max_items : Nat) (exclude_items : List String) : Prop :=
  (python_select_by_initial_letter samp vocab_df target_vocab max_items
      exclude_items).length ≤ max_items ∧
  (∀ x ∈ python_select_by_initial_letter samp vocab_df target_vocab max_items exclude_items,
    lower_strip x ∉ exclude_keys exclude_items target_vocab) ∧
  ((vocab_df.map (fun r => r.item)).Nodup →
    (python_select_by_initial_letter samp vocab_df target_vocab max_items
      exclude_items).Nodup) ∧
  (∀ x ∈ python_select_by_initial_letter samp vocab_df target_vocab max_items exclude_items,
    get_initial_letter x = get_initial_letter target_vocab ∨
      get_initial_letter x ∈ get_phonetic_similar_letters (get_initial_letter target_vocab)) ∧
  ((python_select_by_initial_letter samp vocab_df target_vocab max_items
      exclude_items).length < max_items →
    ∀ x ∈ vocab_df.map (fun r => r.item),
      get_initial_letter x ∈ get_phonetic_similar_letters (get_initial_letter target_vocab) →
      lower_strip x ∉ exclude_keys exclude_items target_vocab →
      x ∈ python_select_by_initial_letter samp vocab_df target_vocab max_items exclude_items ∨
        lower_strip x ∈ (python_select_by_initial_letter samp vocab_df target_vocab max_items
          exclude_items).map pyLower)

/-- The verified contract of the dual selection inside
`create_vocab_list_stage2_prompt`: the reported total is the combined
size of the two runs, `Needed from LLM` is exactly `8 - total` and
never negative, and the letter-selected items are disjoint
(case/whitespace-insensitively) from the POS-selected items and from
the target. -/
def Stage2PreSelectSpec (samp1 samp2 : Sampler String) (vocabulary_list_df : List VocabRow)
    (target_vocab target_pos : String) : Prop :=
  (vocabStage2PreSelect samp1 samp2 vocabulary_list_df target_vocab target_pos).totalPython =
    (vocabStage2PreSelect samp1 samp2 vocabulary_list_df target_vocab
      target_pos).posSelected.length +
    (vocabStage2PreSelect samp1 samp2 vocabulary_list_df target_vocab
      target_pos).letterSelected.length ∧
  (vocabStage2PreSelect samp1 samp2 vocabulary_list_df target_vocab target_pos).neededFromLLM =
    8 - ((vocabStage2PreSelect samp1 samp2 vocabulary_list_df target_vocab
      target_pos).totalPython : Int) ∧
  0 ≤ (vocabStage2PreSelect samp1 samp2 vocabulary_list_df target_vocab
    target_pos).neededFromLLM ∧
  (∀ x ∈ (vocabStage2PreSelect samp1 samp2 vocabulary_list_df target_vocab
      target_pos).letterSelected,
    lower_strip x ∉ (vocabStage2PreSelect samp1 samp2 vocabulary_list_df target_vocab
      target_pos).posSelected.map lower_strip ∧
    lower_strip x ≠ lower_strip target_vocab)

/-- The verified frame property of `get_few_shot_examples`: keys and
rows of every bank are unchanged; each bank keeps its columns or has
them replaced by their stripped forms; and if every column name is
already stripped the bank dict is returned unchanged. -/
def FewShotFrameSpec (samp : Sampler (List String)) (job : Job)
    (example_banks : List (String × Bank)) : Prop :=
  ((get_few_shot_examples samp job example_banks).2).map (fun p => (p.1, p.2.rows)) =
    example_banks.map (fun p => (p.1, p.2.rows)) ∧
  (∀ p ∈ (get_few_shot_examples samp job example_banks).2,
    ∃ q ∈ example_banks, p.1 = q.1 ∧ p.2.rows = q.2.rows ∧
      (p.2.cols = q.2.cols ∨ p.2.cols = q.2.cols.map pyStrip)) ∧
  ((∀ p ∈ example_banks, ∀ c ∈ p.2.cols, pyStrip c = c) →
    (get_few_shot_examples samp job example_banks).2 = example_banks)

/- Concrete inputs used by witnesses and counterexamples. -/

/-- A Sequential Batch grammar job. -/
def jobG : Job :=
  { jobId := 0, cefr := "B1", type := "Grammar",
    focus := "Past Simple vs. Present Perfect", topic := "General",
    strategy := "Sequential Batch (3-Call)" }

/-- First Stage 1 record of the mismatch run. -/
def s1r1 : Stage1Record :=
  { itemNumber := "1", assessmentFocus := "Past Simple vs. Present Perfect",
    completeSentence := "She went home.", correctAnswer := "went",
    cefrRating := "B1", category := "Grammar" }

/-- Second Stage 1 record of the mismatch run (no Stage 3 partner). -/
def s1r2 : Stage1Record :=
  { itemNumber := "2", assessmentFocus := "Past Simple vs. Present Perfect",
    completeSentence := "He has eaten.", correctAnswer := "eaten",
    cefrRating := "B1", category := "Grammar" }

/-- The only Stage 3 record of the mismatch run. -/
def s3r1 : Stage3Record :=
  { selectedDistractorA := "goes", selectedDistractorB := "gone",
    selectedDistractorC := "going" }

/-- A batch whose Stage 3 list is shorter than its Stage 1 list and
its job list: two jobs, two Stage 1 records, one Stage 3 record. -/
def envMismatch : BatchEnv :=
  { jobs := [jobG, { jobG with jobId := 1 }]
    stage1Result := .ok [s1r1, s1r2]
    stage2Result := .ok []
    stage3Result := .ok [s3r1] }

/-- A batch whose Stage 1 response fails to parse. -/
def envStage1Fail : BatchEnv :=
  { jobs := [jobG]
    stage1Result := .error "Response is not valid JSON"
    stage2Result := .ok []
    stage3Result := .ok [] }

/-- A Stage 1 record whose correct answer occurs twice in its
sentence. -/
def s1double : Stage1Record :=
  { itemNumber := "1", assessmentFocus := "Verb forms",
    completeSentence := "go go now", correctAnswer := "go",
    cefrRating := "A1", category := "Grammar" }

/-- A Stage 3 record for the double-occurrence item. -/
def s3double : Stage3Record :=
  { selectedDistractorA := "went", selectedDistractorB := "gone",
    selectedDistractorC := "going" }

/-- The spec's round-trip Stage 1 record (§8). -/
def s1school : Stage1Record :=
  { itemNumber := "1", assessmentFocus := "Subject-verb agreement",
    completeSentence := "She goes to school.", correctAnswer := "goes",
    cefrRating := "A2", category := "Grammar" }

/-- The spec's round-trip Stage 3 record (§8). -/
def s3school : Stage3Record :=
  { selectedDistractorA := "go", selectedDistractorB := "gone",
    selectedDistractorC := "going" }

/-- A concrete shuffle of the round-trip options. -/
def optsSchool : List String := ["go", "goes", "gone", "going"]

/-- A vocabulary table with a duplicated entry. -/
def dfDup : List VocabRow := [{ item := "bat", pos := "noun" }, { item := "bat", pos := "noun" }]

/-- A small duplicate-free vocabulary table. -/
def dfSmall : List VocabRow :=
  [{ item := "cat", pos := "noun" }, { item := "kit", pos := "noun" },
   { item := "dog", pos := "noun" }, { item := "run", pos := "verb" }]

/-- A vocabulary table for the letter-f fallback witness. -/
def dfF : List VocabRow :=
  [{ item := "fish", pos := "noun" }, { item := "fog", pos := "noun" },
   { item := "phone", pos := "noun" }]

/-- A bank whose CEFR column name carries a stray leading space. -/
def banksSpaced : List (String × Bank) :=
  [("grammar", { cols := [" CEFR rating"], rows := [["A1"]] })]

/-- A bank dict whose column names are already stripped. -/
def banksClean : List (String × Bank) :=
  [("grammar", { cols := ["CEFR rating"], rows := [["A1"]] })]

/-- The job looking banks up under the key "grammar". -/
def jobBankX : Job :=
  { jobId := 0, cefr := "A1", type := "Grammar", focus := "", topic := "",
    strategy := "Sequential Batch (3-Call)" }

/- ------------------------------------------------------------------
   Helper lemmas
   ------------------------------------------------------------------ -/

theorem sampTake_ok {α : Type} : SamplerOK (sampTake (α := α)) := by
  intro l n h
  refine ⟨(List.take_sublist n l).subperm, ?_⟩
  simp [sampTake]
  omega

theorem shId_ok : ShufflerOK shId := fun _ => List.Perm.refl _

theorem subperm_nodup {α : Type} {l₁ l₂ : List α} (h : l₁.Subperm l₂) (h₂ : l₂.Nodup) :
    l₁.Nodup := by
  obtain ⟨l, hp, hs⟩ := h
  exact hp.nodup_iff.1 (List.Nodup.sublist hs h₂)

theorem list_eq_four {α : Type} {l : List α} (h : l.length = 4) :
    ∃ a b c d, l = [a, b, c, d] := by
  rcases l with _ | ⟨a, l⟩; · simp at h
  rcases l with _ | ⟨b, l⟩; · simp at h
  rcases l with _ | ⟨c, l⟩; · simp at h
  rcases l with _ | ⟨d, l⟩; · simp at h
  rcases l with _ | ⟨e, l⟩
  · exact ⟨a, b, c, d, rfl⟩
  · simp at h

theorem mem_pyWordsAux_ne_nil :
    ∀ (l acc w : List Char), w ∈ pyWordsAux l acc → w ≠ [] := by
  intro l
  induction l with
  | nil =>
    intro acc w hw
    by_cases hacc : acc = []
    · simp [pyWordsAux, hacc] at hw
    · simp [pyWordsAux, hacc] at hw
      subst hw
      simpa using hacc
  | cons c rest ih =>
    intro acc w hw
    by_cases hws : c.isWhitespace
    · by_cases hacc : acc = []
      · rw [pyWordsAux] at hw
        simp [hws, hacc] at hw
        exact ih [] w hw
      · rw [pyWordsAux] at hw
        simp [hws, hacc] at hw
        rcases hw with rfl | hw
        · simpa using hacc
        · exact ih [] w hw
    · rw [pyWordsAux] at hw
      simp [hws] at hw
      exact ih (c :: acc) w hw

/- ------------------------------------------------------------------
   C9: initial letter of the first word
   ------------------------------------------------------------------ -/

/-- Claim C9: `get_initial_letter` strips parenthetical content and
returns the lowercased first letter of the first remaining word; in
particular it maps "belong (to)" to "b" and "add on" to "a". -/
theorem initial_letter_first_word_spec :
    (∀ s : String, pyWords (stripParens s.data) ≠ [] →
      get_initial_letter s = spec_initial_letter s) ∧
    get_initial_letter "belong (to)" = "b" ∧
    get_initial_letter "add on" = "a" := by
  refine ⟨?_, by decide, by decide⟩
  intro s hne
  unfold get_initial_letter get_first_word spec_initial_letter
  rcases hw : pyWords (stripParens s.data) with _ | ⟨w, ws⟩
  · exact absurd hw hne
  · have hwne : w ≠ [] :=
      mem_pyWordsAux_ne_nil (stripParens s.data) [] w
        (by rw [show pyWordsAux (stripParens s.data) [] = pyWords (stripParens s.data) from rfl, hw]; exact List.mem_cons_self w ws)
    rcases w with _ | ⟨c, cs⟩
    · exact absurd rfl hwne
    · simp [pyLower]

/-- Witness for C9 at the spec's own example "belong (to)". -/
theorem initial_letter_first_word_spec_witness :
    pyWords (stripParens ("belong (to)" : String).data) ≠ [] ∧
    get_initial_letter "belong (to)" = spec_initial_letter "belong (to)" :=
  ⟨by decide, initial_letter_first_word_spec.1 "belong (to)" (by decide)⟩

/- ------------------------------------------------------------------
   C4: stage failures abort the remaining stages
   ------------------------------------------------------------------ -/

/-- Claim C4: in the Sequential Batch (3-Call) strategy, when
parsing/extraction of stage k's response fails, exactly k LLM calls
were made (no later stage is composed or called), assembly does not
run, and no FinalQuestion rows are produced; an error is surfaced. -/
theorem stage_failure_aborts_pipeline (sh : Shuffler) (env : BatchEnv) (k : Nat)
    (hk : stageFailureIndex env = some k) :
    (runSequentialBatch sh env).llmCalls = k ∧
    (runSequentialBatch sh env).questions = [] ∧
    (runSequentialBatch sh env).errorMsg ≠ none := by
  obtain ⟨jobs, r1, r2, r3⟩ := env
  rcases r1 with e1 | l1
  · simp [stageFailureIndex] at hk
    subst hk
    simp [runSequentialBatch]
  · simp only [stageFailureIndex, questionTypeOf] at hk
    simp only [runSequentialBatch, questionTypeOf]
    by_cases ht : (jobs.headD default).type = "Grammar" ∨ (jobs.headD default).type = "Vocabulary"
    · rw [if_pos ht] at hk ⊢
      rcases r2 with e2 | l2
      · simp at hk
        subst hk
        simp
      · rcases r3 with e3 | l3
        · simp at hk
          subst hk
          simp
        · simp at hk
    · rw [if_neg ht] at hk
      simp at hk

/-- Witness for C4: a batch whose Stage 1 response fails to parse
makes one call, produces nothing, and surfaces an error. -/
theorem stage_failure_aborts_pipeline_witness :
    (runSequentialBatch shId envStage1Fail).llmCalls = 1 ∧
    (runSequentialBatch shId envStage1Fail).questions = [] ∧
    (runSequentialBatch shId envStage1Fail).errorMsg ≠ none :=
  stage_failure_aborts_pipeline shId envStage1Fail 1 (by decide)

/- ------------------------------------------------------------------
   C1: count mismatches and the final assembly
   ------------------------------------------------------------------ -/

/-- Counterexample to claim C1: a batch with two jobs, two Stage 1
records and a single Stage 3 record completes WITHOUT error and
silently produces one question, so a count mismatch is not a hard
failure and the assembly drops the job with no Stage 3 record. -/
theorem assembly_mismatch_counterexample :
    envMismatch.jobs.length = 2 ∧
    envMismatch.stage1Result = Except.ok [s1r1, s1r2] ∧
    envMismatch.stage3Result = Except.ok [s3r1] ∧
    (runSequentialBatch shId envMismatch).errorMsg = none ∧
    (runSequentialBatch shId envMismatch).questions.length = 1 := by
  refine ⟨rfl, rfl, rfl, ?_, ?_⟩ <;> decide

/-- Claim C1 as amended: the Sequential Batch branch never compares
stage record counts with the job count; when all three stages parse,
the run reports no error and the final assembly produces exactly
`min |stage1| |stage3|` rows, silently dropping trailing Stage 1
records (hence jobs) with no Stage 3 partner. -/
theorem assembly_truncates_to_min (sh : Shuffler) (env : BatchEnv)
    (l1 : List Stage1Record) (l2 : List Stage2Record) (l3 : List Stage3Record)
    (h1 : env.stage1Result = Except.ok l1) (h2 : env.stage2Result = Except.ok l2)
    (h3 : env.stage3Result = Except.ok l3)
    (ht : questionTypeOf env = "Grammar" ∨ questionTypeOf env = "Vocabulary") :
    (runSequentialBatch sh env).errorMsg = none ∧
    (runSequentialBatch sh env).questions.length = min l1.length l3.length := by
  simp only [runSequentialBatch, h1, h2, h3]
  rw [if_pos ht]
  exact ⟨rfl, by simp [assembleAll]⟩

/-- Witness for the amended C1 at the mismatch batch: no error and
`min 2 1 = 1` assembled rows. -/
theorem assembly_truncates_to_min_witness :
    (runSequentialBatch shId envMismatch).errorMsg = none ∧
    (runSequentialBatch shId envMismatch).questions.length =
      min ([s1r1, s1r2].length) ([s3r1].length) :=
  assembly_truncates_to_min shId envMismatch [s1r1, s1r2] [] [s3r1] rfl rfl rfl
    (Or.inl rfl)

/- ------------------------------------------------------------------
   C2: blanking out the correct answer
   ------------------------------------------------------------------ -/

theorem pyReplaceGo_of_countOcc_zero (old new : List Char) :
    ∀ (fuel : Nat) (s : List Char), s.length ≤ fuel → countOccGo old fuel s = 0 →
      pyReplaceGo old new fuel s = s := by
  intro fuel
  induction fuel with
  | zero =>
    intro s hs _
    cases s with
    | nil => rfl
    | cons c rest => simp at hs
  | succ fuel ih =>
    intro s hs hc
    cases s with
    | nil => rfl
    | cons c rest =>
      have hr : rest.length ≤ fuel := by simp at hs; omega
      simp only [countOccGo] at hc
      simp only [pyReplaceGo]
      by_cases hp : old.isPrefixOf (c :: rest) = true
      · rw [if_pos hp] at hc
        omega
      · rw [if_neg hp] at hc
        rw [if_neg hp, ih rest hr hc]

theorem pyReplaceGo_of_countOcc_one (old new : List Char) :
    ∀ (fuel : Nat) (s : List Char), s.length ≤ fuel → countOccGo old fuel s = 1 →
      pyReplaceGo old new fuel s = replaceFirst old new s := by
  intro fuel
  induction fuel with
  | zero =>
    intro s hs hc
    cases s with
    | nil => simp [countOccGo] at hc
    | cons c rest => simp at hs
  | succ fuel ih =>
    intro s hs hc
    cases s with
    | nil => simp [countOccGo] at hc
    | cons c rest =>
      have hr : rest.length ≤ fuel := by simp at hs; omega
      simp only [countOccGo] at hc
      simp only [pyReplaceGo, replaceFirst]
      by_cases hp : old.isPrefixOf (c :: rest) = true
      · rw [if_pos hp] at hc
        rw [if_pos hp, if_pos hp]
        have hdrop : (rest.drop (old.length - 1)).length ≤ fuel := by
          simp [List.length_drop]
          omega
        rw [pyReplaceGo_of_countOcc_zero old new fuel _ hdrop (by omega)]
      · rw [if_neg hp] at hc
        rw [if_neg hp, if_neg hp, ih rest hr hc]

/-- Counterexample to claim C2: for the assembled item whose sentence
is "go go now" with correct answer "go" (which occurs twice), the
Question Prompt blanks BOTH occurrences, so it differs from the
first-occurrence substitution and the second occurrence is not left
intact. -/
theorem question_prompt_counterexample :
    countOcc ("go" : String).data ("go go now" : String).data = 2 ∧
    (assembleItem s1double (assembleOptions s1double s3double)).questionPrompt =
      "____ ____ now" ∧
    replaceFirstSpec "go go now" "go" "____" = "____ go now" ∧
    (assembleItem s1double (assembleOptions s1double s3double)).questionPrompt ≠
      replaceFirstSpec "go go now" "go" "____" := by
  refine ⟨by decide, by decide, by decide, by decide⟩

/-- Claim C2 as amended: the Question Prompt is the Complete Sentence
with EVERY non-overlapping occurrence of the Correct Answer replaced
by "____" (Python `str.replace` replaces all occurrences); when the
Correct Answer occurs exactly once, this coincides with the spec's
first-occurrence substitution. -/
theorem question_prompt_single_occurrence (s1 : Stage1Record) (options : List String)
    (hne : s1.correctAnswer.data ≠ [])
    (hcount : countOcc s1.correctAnswer.data s1.completeSentence.data = 1) :
    (assembleItem s1 options).questionPrompt =
      replaceFirstSpec s1.completeSentence s1.correctAnswer "____" := by
  show String.mk (pyReplace s1.completeSentence.data s1.correctAnswer.data
    ("____" : String).data) = _
  unfold replaceFirstSpec pyReplace
  rw [if_neg hne]
  exact congrArg String.mk
    (pyReplaceGo_of_countOcc_one _ _ _ _ le_rfl hcount)

/-- Witness for the amended C2 at the spec's round-trip example:
"She goes to school." with answer "goes" yields "She ____ to school.". -/
theorem question_prompt_single_occurrence_witness :
    ("goes" : String).data ≠ [] ∧
    countOcc ("goes" : String).data ("She goes to school." : String).data = 1 ∧
    (assembleItem s1school optsSchool).questionPrompt =
      replaceFirstSpec "She goes to school." "goes" "____" ∧
    replaceFirstSpec "She goes to school." "goes" "____" = "She ____ to school." :=
  ⟨by decide, by decide,
    question_prompt_single_occurrence s1school optsSchool (by decide) (by decide),
    by decide⟩

/- ------------------------------------------------------------------
   C3: option shuffle and the correct letter
   ------------------------------------------------------------------ -/

/-- Claim C3: for any shuffle of the built options, the four Answer
fields are a permutation (as a multiset) of the three selected
distractors plus the correct answer, the recorded letter is one of
A-D, and the answer at that letter equals the correct answer. -/
theorem options_shuffle_correct_letter (s1 : Stage1Record) (s3 : Stage3Record)
    (options : List String) (hperm : options.Perm (assembleOptions s1 s3)) :
    ([(assembleItem s1 options).answerA, (assembleItem s1 options).answerB,
      (assembleItem s1 options).answerC, (assembleItem s1 options).answerD]).Perm
        (assembleOptions s1 s3) ∧
    (assembleItem s1 options).correctAnswer ∈ (["A", "B", "C", "D"] : List String) ∧
    answerAt (assembleItem s1 options) (assembleItem s1 options).correctAnswer =
      some s1.correctAnswer := by
  have hlen : options.length = 4 := by
    have h := hperm.length_eq
    simpa [assembleOptions] using h
  obtain ⟨a, b, c, d, rfl⟩ := list_eq_four hlen
  have hmem : s1.correctAnswer ∈ [a, b, c, d] :=
    hperm.mem_iff.2 (by simp [assembleOptions])
  have hidx : List.indexOf s1.correctAnswer [a, b, c, d] < 4 := by
    have h := List.indexOf_lt_length.2 hmem
    simpa using h
  have hget : [a, b, c, d].get
      ⟨List.indexOf s1.correctAnswer [a, b, c, d], by simpa using hidx⟩ =
        s1.correctAnswer := List.indexOf_get _
  refine ⟨by simpa [assembleItem] using hperm, ?_, ?_⟩
  · have h03 : List.indexOf s1.correctAnswer [a, b, c, d] = 0 ∨
        List.indexOf s1.correctAnswer [a, b, c, d] = 1 ∨
        List.indexOf s1.correctAnswer [a, b, c, d] = 2 ∨
        List.indexOf s1.correctAnswer [a, b, c, d] = 3 := by omega
    rcases h03 with h | h | h | h <;> simp [assembleItem, h]
  · have h03 : List.indexOf s1.correctAnswer [a, b, c, d] = 0 ∨
        List.indexOf s1.correctAnswer [a, b, c, d] = 1 ∨
        List.indexOf s1.correctAnswer [a, b, c, d] = 2 ∨
        List.indexOf s1.correctAnswer [a, b, c, d] = 3 := by omega
    rcases h03 with h | h | h | h
    · have hletter : (assembleItem s1 [a, b, c, d]).correctAnswer = "A" := by
        simp only [assembleItem]
        rw [h]
      simp only [h] at hget
      rw [hletter]
      simp only [assembleItem, answerAt]
      rw [if_pos trivial]
      exact congrArg some hget
    · have hletter : (assembleItem s1 [a, b, c, d]).correctAnswer = "B" := by
        simp only [assembleItem]
        rw [h]
      simp only [h] at hget
      rw [hletter]
      simp only [assembleItem, answerAt]
      rw [if_pos trivial]
      exact congrArg some hget
    · have hletter : (assembleItem s1 [a, b, c, d]).correctAnswer = "C" := by
        simp only [assembleItem]
        rw [h]
      simp only [h] at hget
      rw [hletter]
      simp only [assembleItem, answerAt]
      rw [if_pos trivial]
      exact congrArg some hget
    · have hletter : (assembleItem s1 [a, b, c, d]).correctAnswer = "D" := by
        simp only [assembleItem]
        rw [h]
      simp only [h] at hget
      rw [hletter]
      simp only [assembleItem, answerAt]
      rw [if_pos trivial]
      exact congrArg some hget

/- ------------------------------------------------------------------
   Selection helper lemmas (towards C5, C6, C7, C10)
   ------------------------------------------------------------------ -/

theorem same_pos_pool_sound {vocab_df : List VocabRow} {target_vocab target_pos x : String}
    (hx : x ∈ same_pos_pool vocab_df target_vocab target_pos) :
    (∃ r ∈ vocab_df, r.item = x ∧ lower_strip r.pos = lower_strip target_pos) ∧
      lower_strip x ≠ lower_strip target_vocab := by
  simp only [same_pos_pool, List.mem_map, List.mem_filter, decide_eq_true_eq] at hx
  obtain ⟨r, ⟨⟨hrdf, hpos⟩, hne⟩, hitem⟩ := hx
  subst hitem
  exact ⟨⟨r, hrdf, rfl, hpos⟩, hne⟩

theorem python_select_by_pos_subset {samp : Sampler String} {vocab_df : List VocabRow}
    {target_vocab target_pos : String} {max_items : Nat} (hs : SamplerOK samp) :
    ∀ x ∈ python_select_by_pos samp vocab_df target_vocab target_pos max_items,
      x ∈ same_pos_pool vocab_df target_vocab target_pos := by
  intro x hx
  simp only [python_select_by_pos] at hx
  by_cases hb : max_items ≤ (same_pos_pool vocab_df target_vocab target_pos).length
  · rw [if_pos hb] at hx
    exact (hs _ max_items hb).1.subset hx
  · rw [if_neg hb] at hx
    exact hx

theorem python_select_by_pos_length {samp : Sampler String} {vocab_df : List VocabRow}
    {target_vocab target_pos : String} {max_items : Nat} (hs : SamplerOK samp) :
    (python_select_by_pos samp vocab_df target_vocab target_pos max_items).length ≤
        max_items ∧
      (max_items ≤ (same_pos_pool vocab_df target_vocab target_pos).length →
        (python_select_by_pos samp vocab_df target_vocab target_pos max_items).length =
          max_items) := by
  simp only [python_select_by_pos]
  by_cases hb : max_items ≤ (same_pos_pool vocab_df target_vocab target_pos).length
  · rw [if_pos hb]
    have h := (hs _ max_items hb).2
    exact ⟨h.le, fun _ => h⟩
  · rw [if_neg hb]
    exact ⟨by omega, fun hc => absurd hc hb⟩

theorem mem_same_letter_pool_elim {vocab_df : List VocabRow} {target_vocab x : String}
    {exclude_items : List String}
    (hx : x ∈ same_letter_pool vocab_df target_vocab exclude_items) :
    x ∈ vocab_df.map (fun r => r.item) ∧
      get_initial_letter x = get_initial_letter target_vocab ∧
      lower_strip x ∉ exclude_keys exclude_items target_vocab := by
  simp only [same_letter_pool, List.mem_map, List.mem_filter, decide_eq_true_eq] at hx
  obtain ⟨r, ⟨⟨hrdf, hl⟩, he⟩, hitem⟩ := hx
  subst hitem
  exact ⟨List.mem_map_of_mem _ hrdf, hl, he⟩

theorem same_letter_pool_nodup {vocab_df : List VocabRow} {target_vocab : String}
    {exclude_items : List String} (h : (vocab_df.map (fun r => r.item)).Nodup) :
    (same_letter_pool vocab_df target_vocab exclude_items).Nodup :=
  List.Nodup.sublist
    (List.Sublist.map _ ((List.filter_sublist _).trans (List.filter_sublist _))) h

theorem mem_phonetic_matches_elim {items excl cands : List String} {phon x : String}
    (hx : x ∈ phonetic_matches items excl cands phon) :
    x ∈ items ∧ get_initial_letter x = phon ∧
      lower_strip x ∉ excl ++ cands.map pyLower := by
  simp only [phonetic_matches, List.mem_filter, decide_eq_true_eq] at hx
  exact ⟨hx.1.1, hx.1.2, hx.2⟩

theorem mem_phonetic_matches_intro {items excl cands : List String} {phon x : String}
    (h1 : x ∈ items) (h2 : get_initial_letter x = phon)
    (h3 : lower_strip x ∉ excl ++ cands.map pyLower) :
    x ∈ phonetic_matches items excl cands phon := by
  simp only [phonetic_matches, List.mem_filter, decide_eq_true_eq]
  exact ⟨⟨h1, h2⟩, h3⟩

theorem phonetic_matches_nodup {items excl cands : List String} {phon : String}
    (h : items.Nodup) : (phonetic_matches items excl cands phon).Nodup :=
  (h.filter _).filter _

set_option maxHeartbeats 1000000 in
theorem phonetic_nodup (s : String) : (get_phonetic_similar_letters s).Nodup := by
  unfold get_phonetic_similar_letters
  split_ifs <;> decide

set_option maxHeartbeats 1000000 in
theorem self_not_mem_phonetic (s : String) : s ∉ get_phonetic_similar_letters s := by
  intro hmem
  unfold get_phonetic_similar_letters at hmem
  split_ifs at hmem with h1 h2 h3 h4 h5 h6 h7 h8 h9 h10 h11
  · rcases List.mem_cons.mp hmem with rfl | hmem2
    · exact absurd h1 (by decide)
    · rcases List.mem_cons.mp hmem2 with rfl | hmem3
      · exact absurd h1 (by decide)
      · simp at hmem3
  · rcases List.mem_cons.mp hmem with rfl | hmem2
    · exact absurd h2 (by decide)
    · rcases List.mem_cons.mp hmem2 with rfl | hmem3
      · exact absurd h2 (by decide)
      · simp at hmem3
  · rcases List.mem_cons.mp hmem with rfl | hmem2
    · exact absurd h3 (by decide)
    · rcases List.mem_cons.mp hmem2 with rfl | hmem3
      · exact absurd h3 (by decide)
      · simp at hmem3
  · rcases List.mem_cons.mp hmem with rfl | hmem2
    · exact absurd h4 (by decide)
    · rcases List.mem_cons.mp hmem2 with rfl | hmem3
      · exact absurd h4 (by decide)
      · simp at hmem3
  · rcases List.mem_cons.mp hmem with rfl | hmem2
    · exact absurd h5 (by decide)
    · simp at hmem2
  · rcases List.mem_cons.mp hmem with rfl | hmem2
    · exact absurd h6 (by decide)
    · simp at hmem2
  · rcases List.mem_cons.mp hmem with rfl | hmem2
    · exact absurd h7 (by decide)
    · simp at hmem2
  · rcases List.mem_cons.mp hmem with rfl | hmem2
    · exact absurd h8 (by decide)
    · simp at hmem2
  · rcases List.mem_cons.mp hmem with rfl | hmem2
    · exact absurd h9 (by decide)
    · simp at hmem2
  · rcases List.mem_cons.mp hmem with rfl | hmem2
    · exact absurd h10 (by decide)
    · simp at hmem2
  · rcases List.mem_cons.mp hmem with rfl | hmem2
    · exact absurd h11 (by decide)
    · simp at hmem2
  · simp at hmem

theorem get_initial_letter_length_le (s : String) : (get_initial_letter s).length ≤ 1 := by
  unfold get_initial_letter
  rcases (get_first_word s).data with _ | ⟨c, rest⟩ <;> simp [String.length]

theorem get_initial_letter_ne_ph (s : String) : get_initial_letter s ≠ "ph" := by
  intro h
  have hlen := get_initial_letter_length_le s
  rw [h] at hlen
  exact absurd hlen (by decide)

theorem fallbackLoop_subset_start (samp : Sampler String) (items excl : List String)
    (max_items : Nat) :
    ∀ (letters cands : List String),
      cands ⊆ fallbackLoop samp items excl max_items letters cands := by
  intro letters
  induction letters with
  | nil =>
    intro cands
    rw [fallbackLoop]
    exact fun _ h => h
  | cons phon rest ih =>
    intro cands
    rw [fallbackLoop]
    by_cases hb : max_items ≤ cands.length
    · rw [if_pos hb]
      exact fun _ h => h
    · rw [if_neg hb]
      by_cases hpm : phonetic_matches items excl cands phon ≠ []
      · rw [if_pos hpm]
        exact List.Subset.trans (List.subset_append_left _ _) (ih _)
      · rw [if_neg hpm]
        exact ih _

theorem fallbackLoop_length_mono (samp : Sampler String) (items excl : List String)
    (max_items : Nat) :
    ∀ (letters cands : List String),
      cands.length ≤ (fallbackLoop samp items excl max_items letters cands).length := by
  intro letters
  induction letters with
  | nil =>
    intro cands
    rw [fallbackLoop]
  | cons phon rest ih =>
    intro cands
    rw [fallbackLoop]
    by_cases hb : max_items ≤ cands.length
    · rw [if_pos hb]
    · rw [if_neg hb]
      by_cases hpm : phonetic_matches items excl cands phon ≠ []
      · rw [if_pos hpm]
        calc cands.length ≤ (cands ++ samp (phonetic_matches items excl cands phon)
              (min (max_items - cands.length)
                (phonetic_matches items excl cands phon).length)).length := by
              simp
        _ ≤ _ := ih _
      · rw [if_neg hpm]
        exact ih _

theorem fallbackLoop_provenance (samp : Sampler String) (items excl : List String)
    (max_items : Nat) (hs : SamplerOK samp) :
    ∀ (letters cands : List String) (x : String),
      x ∈ fallbackLoop samp items excl max_items letters cands →
      x ∈ cands ∨
        (x ∈ items ∧ get_initial_letter x ∈ letters ∧ lower_strip x ∉ excl) := by
  intro letters
  induction letters with
  | nil =>
    intro cands x hx
    rw [fallbackLoop] at hx
    exact Or.inl hx
  | cons phon rest ih =>
    intro cands x hx
    rw [fallbackLoop] at hx
    by_cases hb : max_items ≤ cands.length
    · rw [if_pos hb] at hx
      exact Or.inl hx
    · rw [if_neg hb] at hx
      by_cases hpm : phonetic_matches items excl cands phon ≠ []
      · rw [if_pos hpm] at hx
        rcases ih _ x hx with hmem | ⟨hit, hlet, hexcl⟩
        · rcases List.mem_append.mp hmem with h | h
          · exact Or.inl h
          · have hn : min (max_items - cands.length)
                (phonetic_matches items excl cands phon).length ≤
                  (phonetic_matches items excl cands phon).length := min_le_right _ _
            have hxpm : x ∈ phonetic_matches items excl cands phon :=
              (hs _ _ hn).1.subset h
            have hdec := mem_phonetic_matches_elim hxpm
            refine Or.inr ⟨hdec.1, ?_, ?_⟩
            · rw [hdec.2.1]
              exact List.mem_cons_self _ _
            · intro hc
              exact hdec.2.2 (List.mem_append.mpr (Or.inl hc))
        · exact Or.inr ⟨hit, List.mem_cons_of_mem _ hlet, hexcl⟩
      · rw [if_neg hpm] at hx
        rcases ih _ x hx with h | ⟨hit, hlet, hexcl⟩
        · exact Or.inl h
        · exact Or.inr ⟨hit, List.mem_cons_of_mem _ hlet, hexcl⟩

theorem fallbackLoop_nodup (samp : Sampler String) (items excl : List String)
    (max_items : Nat) (hs : SamplerOK samp) (hitems : items.Nodup) :
    ∀ (letters cands : List String), cands.Nodup → letters.Nodup →
      (∀ x ∈ cands, get_initial_letter x ∉ letters) →
      (fallbackLoop samp items excl max_items letters cands).Nodup := by
  intro letters
  induction letters with
  | nil =>
    intro cands hc _ _
    rw [fallbackLoop]
    exact hc
  | cons phon rest ih =>
    intro cands hc hlet hdisj
    rw [fallbackLoop]
    by_cases hb : max_items ≤ cands.length
    · rw [if_pos hb]
      exact hc
    · rw [if_neg hb]
      by_cases hpm : phonetic_matches items excl cands phon ≠ []
      · rw [if_pos hpm]
        have hn : min (max_items - cands.length)
            (phonetic_matches items excl cands phon).length ≤
              (phonetic_matches items excl cands phon).length := min_le_right _ _
        have hsnd : (samp (phonetic_matches items excl cands phon)
            (min (max_items - cands.length)
              (phonetic_matches items excl cands phon).length)).Nodup :=
          subperm_nodup (hs _ _ hn).1 (phonetic_matches_nodup hitems)
        apply ih
        · refine hc.append hsnd ?_
          intro a ha hb2
          have hapm := (hs _ _ hn).1.subset hb2
          have hdec := mem_phonetic_matches_elim hapm
          exact hdisj a ha (hdec.2.1 ▸ List.mem_cons_self _ _)
        · exact (List.nodup_cons.mp hlet).2
        · intro x hx
          rcases List.mem_append.mp hx with h | h
          · intro hr
            exact hdisj x h (List.mem_cons_of_mem _ hr)
          · have hxpm := (hs _ _ hn).1.subset h
            have hdec := mem_phonetic_matches_elim hxpm
            rw [hdec.2.1]
            exact (List.nodup_cons.mp hlet).1
      · rw [if_neg hpm]
        apply ih _ hc (List.nodup_cons.mp hlet).2
        intro x hx hr
        exact hdisj x hx (List.mem_cons_of_mem _ hr)

theorem fallbackLoop_exhaust (samp : Sampler String) (items excl : List String)
    (max_items : Nat) (hs : SamplerOK samp) :
    ∀ (letters cands : List String) (x : String),
      (fallbackLoop samp items excl max_items letters cands).length < max_items →
      x ∈ items → get_initial_letter x ∈ letters → lower_strip x ∉ excl →
      x ∈ fallbackLoop samp items excl max_items letters cands ∨
        lower_strip x ∈ (fallbackLoop samp items excl max_items letters cands).map pyLower := by
  intro letters
  induction letters with
  | nil =>
    intro cands x _ _ hlet _
    simp at hlet
  | cons phon rest ih =>
    intro cands x hlen hxitems hxlet hxexcl
    rw [fallbackLoop] at hlen ⊢
    by_cases hb : max_items ≤ cands.length
    · rw [if_pos hb] at hlen ⊢
      omega
    · rw [if_neg hb] at hlen ⊢
      by_cases hpm : phonetic_matches items excl cands phon ≠ []
      · rw [if_pos hpm] at hlen ⊢
        rcases List.mem_cons.mp hxlet with hxphon | hxrest
        · by_cases hex : lower_strip x ∈ excl ++ cands.map pyLower
          · have hx2 : lower_strip x ∈ cands.map pyLower := by
              rcases List.mem_append.mp hex with h | h
              · exact absurd h hxexcl
              · exact h
            right
            obtain ⟨cc, hcc, hceq⟩ := List.mem_map.mp hx2
            rw [← hceq]
            refine List.mem_map_of_mem _ ?_
            exact fallbackLoop_subset_start samp items excl max_items rest _
              (List.mem_append.mpr (Or.inl hcc))
          · have hxpm : x ∈ phonetic_matches items excl cands phon :=
              mem_phonetic_matches_intro hxitems hxphon hex
            have hn : min (max_items - cands.length)
                (phonetic_matches items excl cands phon).length ≤
                  (phonetic_matches items excl cands phon).length := min_le_right _ _
            have hsl := (hs _ _ hn).2
            have hmono := fallbackLoop_length_mono samp items excl max_items rest
              (cands ++ samp (phonetic_matches items excl cands phon)
                (min (max_items - cands.length)
                  (phonetic_matches items excl cands phon).length))
            have hcl : (cands ++ samp (phonetic_matches items excl cands phon)
                (min (max_items - cands.length)
                  (phonetic_matches items excl cands phon).length)).length < max_items :=
              lt_of_le_of_lt hmono hlen
            rw [List.length_append, hsl] at hcl
            have hnpm : min (max_items - cands.length)
                (phonetic_matches items excl cands phon).length =
                  (phonetic_matches items excl cands phon).length := by omega
            have hperm : (samp (phonetic_matches items excl cands phon)
                (min (max_items - cands.length)
                  (phonetic_matches items excl cands phon).length)).Perm
                  (phonetic_matches items excl cands phon) :=
              (hs _ _ hn).1.perm_of_length_le (by rw [hsl, hnpm])
            left
            have hxs := hperm.mem_iff.2 hxpm
            exact fallbackLoop_subset_start samp items excl max_items rest _
              (List.mem_append.mpr (Or.inr hxs))
        · exact ih _ x hlen hxitems hxrest hxexcl
      · rw [if_neg hpm] at hlen ⊢
        push_neg at hpm
        rcases List.mem_cons.mp hxlet with hxphon | hxrest
        · by_cases hex : lower_strip x ∈ excl ++ cands.map pyLower
          · have hx2 : lower_strip x ∈ cands.map pyLower := by
              rcases List.mem_append.mp hex with h | h
              · exact absurd h hxexcl
              · exact h
            right
            obtain ⟨cc, hcc, hceq⟩ := List.mem_map.mp hx2
            rw [← hceq]
            exact List.mem_map_of_mem _
              (fallbackLoop_subset_start samp items excl max_items rest cands hcc)
          · have hxpm : x ∈ phonetic_matches items excl cands phon :=
              mem_phonetic_matches_intro hxitems hxphon hex
            rw [hpm] at hxpm
            simp at hxpm
        · exact ih _ x hlen hxitems hxrest hxexcl

theorem select_by_initial_letter_length_le {samp : Sampler String}
    {vocab_df : List VocabRow} {target_vocab : String} {max_items : Nat}
    {exclude_items : List String} (hs : SamplerOK samp) :
    (python_select_by_initial_letter samp vocab_df target_vocab max_items
      exclude_items).length ≤ max_items := by
  simp only [python_select_by_initial_letter]
  by_cases hb : max_items ≤ (same_letter_pool vocab_df target_vocab exclude_items).length
  · rw [if_pos hb]
    exact (hs _ max_items hb).2.le
  · rw [if_neg hb]
    simp only [List.length_take]
    omega

theorem select_by_initial_letter_excludes {samp : Sampler String}
    {vocab_df : List VocabRow} {target_vocab : String} {max_items : Nat}
    {exclude_items : List String} (hs : SamplerOK samp) :
    ∀ x ∈ python_select_by_initial_letter samp vocab_df target_vocab max_items exclude_items,
      lower_strip x ∉ exclude_keys exclude_items target_vocab := by
  intro x hx
  simp only [python_select_by_initial_letter] at hx
  by_cases hb : max_items ≤ (same_letter_pool vocab_df target_vocab exclude_items).length
  · rw [if_pos hb] at hx
    exact (mem_same_letter_pool_elim ((hs _ max_items hb).1.subset hx)).2.2
  · rw [if_neg hb] at hx
    have hx2 := (List.take_sublist _ _).subset hx
    rcases fallbackLoop_provenance samp (vocab_df.map (fun r => r.item))
        (exclude_keys exclude_items target_vocab) max_items hs _ _ x hx2 with
      h | ⟨_, _, hexcl⟩
    · exact (mem_same_letter_pool_elim h).2.2
    · exact hexcl

theorem select_by_initial_letter_letters {samp : Sampler String}
    {vocab_df : List VocabRow} {target_vocab : String} {max_items : Nat}
    {exclude_items : List String} (hs : SamplerOK samp) :
    ∀ x ∈ python_select_by_initial_letter samp vocab_df target_vocab max_items exclude_items,
      get_initial_letter x = get_initial_letter target_vocab ∨
        get_initial_letter x ∈
          get_phonetic_similar_letters (get_initial_letter target_vocab) := by
  intro x hx
  simp only [python_select_by_initial_letter] at hx
  by_cases hb : max_items ≤ (same_letter_pool vocab_df target_vocab exclude_items).length
  · rw [if_pos hb] at hx
    exact Or.inl (mem_same_letter_pool_elim ((hs _ max_items hb).1.subset hx)).2.1
  · rw [if_neg hb] at hx
    have hx2 := (List.take_sublist _ _).subset hx
    rcases fallbackLoop_provenance samp (vocab_df.map (fun r => r.item))
        (exclude_keys exclude_items target_vocab) max_items hs _ _ x hx2 with
      h | ⟨_, hlet, _⟩
    · exact Or.inl (mem_same_letter_pool_elim h).2.1
    · exact Or.inr hlet

theorem select_by_initial_letter_nodup {samp : Sampler String}
    {vocab_df : List VocabRow} {target_vocab : String} {max_items : Nat}
    {exclude_items : List String} (hs : SamplerOK samp)
    (hnd : (vocab_df.map (fun r => r.item)).Nodup) :
    (python_select_by_initial_letter samp vocab_df target_vocab max_items
      exclude_items).Nodup := by
  simp only [python_select_by_initial_letter]
  by_cases hb : max_items ≤ (same_letter_pool vocab_df target_vocab exclude_items).length
  · rw [if_pos hb]
    exact subperm_nodup (hs _ max_items hb).1 (same_letter_pool_nodup hnd)
  · rw [if_neg hb]
    refine List.Nodup.sublist (List.take_sublist _ _) ?_
    apply fallbackLoop_nodup samp (vocab_df.map (fun r => r.item))
      (exclude_keys exclude_items target_vocab) max_items hs hnd
    · exact same_letter_pool_nodup hnd
    · exact phonetic_nodup _
    · intro x hxp
      rw [(mem_same_letter_pool_elim hxp).2.1]
      exact self_not_mem_phonetic _

theorem select_by_initial_letter_exhaust {samp : Sampler String}
    {vocab_df : List VocabRow} {target_vocab : String} {max_items : Nat}
    {exclude_items : List String} (hs : SamplerOK samp) :
    (python_select_by_initial_letter samp vocab_df target_vocab max_items
        exclude_items).length < max_items →
    ∀ x ∈ vocab_df.map (fun r => r.item),
      get_initial_letter x ∈ get_phonetic_similar_letters (get_initial_letter target_vocab) →
      lower_strip x ∉ exclude_keys exclude_items target_vocab →
      x ∈ python_select_by_initial_letter samp vocab_df target_vocab max_items
        exclude_items ∨
        lower_strip x ∈ (python_select_by_initial_letter samp vocab_df target_vocab
          max_items exclude_items).map pyLower := by
  intro hlen x hxi hxl hxe
  simp only [python_select_by_initial_letter] at hlen ⊢
  by_cases hb : max_items ≤ (same_letter_pool vocab_df target_vocab exclude_items).length
  · rw [if_pos hb] at hlen
    have h := (hs _ max_items hb).2
    omega
  · rw [if_neg hb] at hlen ⊢
    have hloop : (fallbackLoop samp (vocab_df.map (fun r => r.item))
        (exclude_keys exclude_items target_vocab) max_items
        (get_phonetic_similar_letters (get_initial_letter target_vocab))
        (same_letter_pool vocab_df target_vocab exclude_items)).length < max_items := by
      rw [List.length_take] at hlen
      omega
    have htake := List.take_of_length_le (le_of_lt hloop)
    rw [htake]
    exact fallbackLoop_exhaust samp (vocab_df.map (fun r => r.item))
      (exclude_keys exclude_items target_vocab) max_items hs _ _ x hloop hxi hxl hxe

/- ------------------------------------------------------------------
   C5: python_select_by_initial_letter
   ------------------------------------------------------------------ -/

/-- Counterexample to claim C5: a table whose item column repeats
"bat" makes `python_select_by_initial_letter` return ["bat", "bat"]
(the whole undersized pool, fallback for 'b' being empty), so the
result can contain duplicates. -/
theorem select_by_initial_letter_duplicates_counterexample :
    SamplerOK (sampTake (α := String)) ∧
    python_select_by_initial_letter sampTake dfDup "big" 4 [] = ["bat", "bat"] ∧
    ¬ (python_select_by_initial_letter sampTake dfDup "big" 4 []).Nodup :=
  ⟨sampTake_ok, by decide, by decide⟩

/-- Claim C5 (amended): `python_select_by_initial_letter` returns at
most `max` items, none equal (case/whitespace-insensitively) to the
target or an excluded item, with no duplicates PROVIDED the table's
item column has no duplicates; every item shares the target's initial
letter or carries one of its phonetic fallback letters, and when
fewer than `max` items come back, every non-excluded fallback-letter
item of the table was either taken or blocked by an
already-collected candidate. -/
theorem select_by_initial_letter_contract (samp : Sampler String)
    (vocab_df : List VocabRow) (target_vocab : String) (max_items : Nat)
    (exclude_items : List String) (hs : SamplerOK samp) :
    SelectByInitialLetterSpec samp vocab_df target_vocab max_items exclude_items :=
  ⟨select_by_initial_letter_length_le hs,
   select_by_initial_letter_excludes hs,
   fun hnd => select_by_initial_letter_nodup hs hnd,
   select_by_initial_letter_letters hs,
   select_by_initial_letter_exhaust hs⟩

/-- Witness for the amended C5 on a concrete duplicate-free table. -/
theorem select_by_initial_letter_contract_witness :
    SelectByInitialLetterSpec sampTake dfSmall "cat" 4 [] :=
  select_by_initial_letter_contract sampTake dfSmall "cat" 4 [] sampTake_ok

/- ------------------------------------------------------------------
   C6: python_select_by_pos
   ------------------------------------------------------------------ -/

/-- Claim C6: `python_select_by_pos` returns only table items whose
part of speech matches the target after lowercasing and trimming,
never the target word itself, never more than `max` items, and
exactly `max` when the filtered pool has at least `max` entries. -/
theorem select_by_pos_contract (samp : Sampler String) (vocab_df : List VocabRow)
    (target_vocab target_pos : String) (max_items : Nat) (hs : SamplerOK samp) :
    SelectByPosSpec samp vocab_df target_vocab target_pos max_items :=
  ⟨fun x hx => (same_pos_pool_sound (python_select_by_pos_subset hs x hx)).1,
   fun x hx => (same_pos_pool_sound (python_select_by_pos_subset hs x hx)).2,
   (python_select_by_pos_length hs).1,
   (python_select_by_pos_length hs).2⟩

/-- Witness for C6 on a concrete table. -/
theorem select_by_pos_contract_witness :
    SelectByPosSpec sampTake dfSmall "run" "noun" 4 :=
  select_by_pos_contract sampTake dfSmall "run" "noun" 4 sampTake_ok

/- ------------------------------------------------------------------
   C7: the dual selection of create_vocab_list_stage2_prompt
   ------------------------------------------------------------------ -/

/-- Claim C7: in the Stage 2 dual selection, `Needed from LLM` equals
`8 - (POS-selected + letter-selected)`, is never negative (each run
returns at most 4 items), and the letter-selected items are disjoint
(case/whitespace-insensitively) from the POS-selected items and the
target. -/
theorem stage2_preselect_contract (samp1 samp2 : Sampler String)
    (vocabulary_list_df : List VocabRow) (target_vocab target_pos : String)
    (hs1 : SamplerOK samp1) (hs2 : SamplerOK samp2) :
    Stage2PreSelectSpec samp1 samp2 vocabulary_list_df target_vocab target_pos := by
  have hp := (@python_select_by_pos_length samp1 vocabulary_list_df target_vocab
    target_pos 4 hs1).1
  have hl := @select_by_initial_letter_length_le samp2 vocabulary_list_df target_vocab 4
    (python_select_by_pos samp1 vocabulary_list_df target_vocab target_pos 4) hs2
  refine ⟨rfl, ?_, ?_, ?_⟩
  · simp only [vocabStage2PreSelect]
    omega
  · simp only [vocabStage2PreSelect]
    omega
  · intro x hx
    simp only [vocabStage2PreSelect] at hx ⊢
    have hekeys := select_by_initial_letter_excludes hs2 x hx
    rw [exclude_keys, List.map_append] at hekeys
    constructor
    · intro hc
      exact hekeys (List.mem_append.mpr (Or.inl hc))
    · intro hc
      refine hekeys (List.mem_append.mpr (Or.inr ?_))
      simp [hc]

/-- Witness for C7 on a concrete table. -/
theorem stage2_preselect_contract_witness :
    Stage2PreSelectSpec sampTake sampTake dfSmall "cat" "noun" :=
  stage2_preselect_contract sampTake sampTake dfSmall "cat" "noun"
    sampTake_ok sampTake_ok

/- ------------------------------------------------------------------
   C10: the 'f' fallback can contribute nothing
   ------------------------------------------------------------------ -/

/-- Claim C10: for a target whose initial letter is 'f', the phonetic
fallback table only offers the two-character string "ph", which no
item's (at most one-character) initial letter can equal, so every
returned item has initial letter "f". -/
theorem letter_f_fallback_no_items (samp : Sampler String) (vocab_df : List VocabRow)
    (target_vocab : String) (max_items : Nat) (exclude_items : List String)
    (hs : SamplerOK samp) (hf : get_initial_letter target_vocab = "f") :
    get_phonetic_similar_letters (get_initial_letter target_vocab) = ["ph"] ∧
    ∀ x ∈ python_select_by_initial_letter samp vocab_df target_vocab max_items
        exclude_items,
      get_initial_letter x = "f" := by
  have hph : get_phonetic_similar_letters "f" = ["ph"] := by decide
  constructor
  · rw [hf]
    exact hph
  · intro x hx
    rcases select_by_initial_letter_letters hs x hx with h | h
    · rw [hf] at h
      exact h
    · rw [hf, hph] at h
      have hxph : get_initial_letter x = "ph" := by simpa using h
      exact absurd hxph (get_initial_letter_ne_ph x)

/-- Witness for C10 with target "fish" over a table containing
"phone". -/
theorem letter_f_fallback_no_items_witness :
    get_phonetic_similar_letters (get_initial_letter "fish") = ["ph"] ∧
    ∀ x ∈ python_select_by_initial_letter sampTake dfF "fish" 4 [],
      get_initial_letter x = "f" :=
  letter_f_fallback_no_items sampTake dfF "fish" 4 [] sampTake_ok (by decide)

/- ------------------------------------------------------------------
   C8: get_few_shot_examples and bank mutation
   ------------------------------------------------------------------ -/

theorem bankUpdate_strip_spec :
    ∀ (banks : List (String × Bank)) (key : String) (bank : Bank),
      bankLookup banks key = some bank →
      ((bankUpdate banks key { cols := bank.cols.map pyStrip, rows := bank.rows }).map
          (fun p => (p.1, p.2.rows)) = banks.map (fun p => (p.1, p.2.rows)) ∧
        (∀ p ∈ bankUpdate banks key { cols := bank.cols.map pyStrip, rows := bank.rows },
          ∃ q ∈ banks, p.1 = q.1 ∧ p.2.rows = q.2.rows ∧
            (p.2.cols = q.2.cols ∨ p.2.cols = q.2.cols.map pyStrip)) ∧
        ((∀ p ∈ banks, ∀ c ∈ p.2.cols, pyStrip c = c) →
          bankUpdate banks key { cols := bank.cols.map pyStrip, rows := bank.rows } =
            banks)) := by
  intro banks
  induction banks with
  | nil =>
    intro key bank hlk
    simp [bankLookup] at hlk
  | cons hd tl ih =>
    intro key bank hlk
    by_cases hk : hd.1 = key
    · have hbank : bank = hd.2 := by
        simp [bankLookup, List.find?, hk] at hlk
        exact hlk.symm
      subst hbank
      simp only [bankUpdate, if_pos hk]
      refine ⟨by simp, ?_, ?_⟩
      · intro p hp
        rcases List.mem_cons.mp hp with rfl | hp
        · exact ⟨hd, List.mem_cons_self _ _, rfl, rfl, Or.inr rfl⟩
        · exact ⟨p, List.mem_cons_of_mem _ hp, rfl, rfl, Or.inl rfl⟩
      · intro hall
        have hcols : hd.2.cols.map pyStrip = hd.2.cols := by
          calc hd.2.cols.map pyStrip = hd.2.cols.map id :=
                List.map_congr_left (fun c hc => hall hd (List.mem_cons_self _ _) c hc)
          _ = hd.2.cols := List.map_id _
        rw [hcols]
    · have hlk2 : bankLookup tl key = some bank := by
        simpa [bankLookup, List.find?, hk] using hlk
      obtain ⟨ih1, ih2, ih3⟩ := ih key bank hlk2
      simp only [bankUpdate, if_neg hk]
      refine ⟨by simp [ih1], ?_, ?_⟩
      · intro p hp
        rcases List.mem_cons.mp hp with rfl | hp
        · exact ⟨p, List.mem_cons_self _ _, rfl, rfl, Or.inl rfl⟩
        · obtain ⟨q, hq, h1, h2, h3⟩ := ih2 p hp
          exact ⟨q, List.mem_cons_of_mem _ hq, h1, h2, h3⟩
      · intro hall
        rw [ih3 (fun p hp c hc => hall p (List.mem_cons_of_mem _ hp) c hc)]

/-- Counterexample to claim C8: a bank whose CEFR-column name carries
a leading space comes back with that column name stripped, i.e. the
bank table was mutated by the call. -/
theorem few_shot_mutation_counterexample :
    (get_few_shot_examples sampTake jobBankX banksSpaced).2 ≠ banksSpaced ∧
    (get_few_shot_examples sampTake jobBankX banksSpaced).2 =
      [("grammar", { cols := ["CEFR rating"], rows := [["A1"]] })] :=
  ⟨by decide, by decide⟩

/-- Claim C8 (amended): `get_few_shot_examples` never changes any
bank's keys or rows, and the only mutation is replacing the selected
bank's column names by their stripped forms; in particular a bank
dict whose column names are already stripped is returned unchanged. -/
theorem few_shot_frame (samp : Sampler (List String)) (job : Job)
    (example_banks : List (String × Bank)) :
    FewShotFrameSpec samp job example_banks := by
  unfold FewShotFrameSpec
  rcases hlk : bankLookup example_banks (pyLower job.type) with _ | bank
  · have hres : (get_few_shot_examples samp job example_banks).2 = example_banks := by
      simp [get_few_shot_examples, hlk]
    rw [hres]
    exact ⟨rfl, fun p hp => ⟨p, hp, rfl, rfl, Or.inl rfl⟩, fun _ => rfl⟩
  · by_cases hemp : bank.rows = [] ∨ bank.cols = []
    · have hres : (get_few_shot_examples samp job example_banks).2 = example_banks := by
        simp only [get_few_shot_examples, hlk]
        rw [if_pos hemp]
      rw [hres]
      exact ⟨rfl, fun p hp => ⟨p, hp, rfl, rfl, Or.inl rfl⟩, fun _ => rfl⟩
    · have hres : (get_few_shot_examples samp job example_banks).2 =
          bankUpdate example_banks (pyLower job.type)
            { cols := bank.cols.map pyStrip, rows := bank.rows } := by
        simp only [get_few_shot_examples, hlk]
        rw [if_neg hemp]
        split_ifs <;> rfl
      rw [hres]
      exact bankUpdate_strip_spec example_banks (pyLower job.type) bank hlk

/-- Witness for the amended C8: an already-stripped bank dict is
returned unchanged. -/
theorem few_shot_frame_witness :
    (get_few_shot_examples sampTake jobBankX banksClean).2 = banksClean :=
  (few_shot_frame sampTake jobBankX banksClean).2.2 (by decide)

/-- Witness for C3 at the spec's round-trip example with a concrete
shuffle. -/
theorem options_shuffle_correct_letter_witness :
    ([(assembleItem s1school optsSchool).answerA,
      (assembleItem s1school optsSchool).answerB,
      (assembleItem s1school optsSchool).answerC,
      (assembleItem s1school optsSchool).answerD]).Perm
        (assembleOptions s1school s3school) ∧
    (assembleItem s1school optsSchool).correctAnswer ∈
      (["A", "B", "C", "D"] : List String) ∧
    answerAt (assembleItem s1school optsSchool)
        (assembleItem s1school optsSchool).correctAnswer =
      some s1school.correctAnswer :=
  options_shuffle_correct_letter s1school s3school optsSchool (by decide)

end EPT
